import Mathlib

/-!
Verification development for the single-file data-analysis app
`Data_Analysis_Agent.py`.  The embedding works over `List Char` strings.
Pure library internals (the pandas value parsers, the float/timestamp
printers) are taken as explicit parameters, since their code is not part of
this repository; everything the repository's own lines decide (control flow,
na-token handling, quote escaping, the column type-inference loop, the CSV
hand-off, the regex extraction of SQL, and the submit handler) is embedded
directly from the source.
-/

namespace DAg

abbrev Chars := List Char

/-! ## SQL extractor (source line 95): re.search of "```sql\n(.*?)```" with DOTALL -/

/-- Opening marker of the fenced block: the literal characters of "```sql"
followed by a newline. -/
def sqlOpen : Chars := "```sql\n".toList

/-- Closing marker: three backticks. -/
def sqlClose : Chars := "```".toList

/-- The pattern `pat` occurs in `s` starting at index `i`. -/
def occursAt (pat s : Chars) (i : Nat) : Prop :=
  (s.drop i).take pat.length = pat

instance (pat s : Chars) (i : Nat) : Decidable (occursAt pat s i) :=
  decidable_of_iff ((s.drop i).take pat.length = pat) Iff.rfl

/-- Least index at which `pat` occurs in `s`, scanning left to right. -/
def findIdx? (pat : Chars) : Chars → Option Nat
  | [] => if pat = [] then some 0 else none
  | c :: t =>
    if (c :: t).take pat.length = pat then some 0
    else (findIdx? pat t).map (fun n => n + 1)

/-- Attempt of the regex pattern at the current position: the literal opening
marker, then a lazy body up to the nearest later "```" (re.DOTALL lets the
body span newlines). -/
def matchSql (s : Chars) : Option Chars :=
  if s.take sqlOpen.length = sqlOpen then
    (findIdx? sqlClose (s.drop sqlOpen.length)).map
      (fun k => (s.drop sqlOpen.length).take k)
  else none

/-- re.search: try the pattern at each position left to right, returning the
leftmost (lazy) match's captured group. -/
def searchSql : Chars → Option Chars
  | [] => none
  | c :: t =>
    match matchSql (c :: t) with
    | some r => some r
    | none => searchSql t

/-- Python str.isspace on the ASCII whitespace characters str.strip removes. -/
def isPySpace (c : Char) : Bool :=
  c = ' ' || c = '\t' || c = '\n' || c = '\r' || c = '\x0b' || c = '\x0c'

/-- Python str.strip(): drop whitespace from both ends. -/
def pyStrip (s : Chars) : Chars :=
  ((s.dropWhile isPySpace).reverse.dropWhile isPySpace).reverse

/-- Source lines 95-98: sql_match = re.search(...); on a match, the captured
group stripped of surrounding whitespace; otherwise no SQL. -/
def extract (resp : Chars) : Option Chars :=
  (searchSql resp).map pyStrip

/-- A response contains a fenced sql block: an opening marker somewhere, with
a closing marker starting at or after the end of the opening marker. -/
def hasBlock (s : Chars) : Prop :=
  ∃ i j, occursAt sqlOpen s i ∧ i + 7 ≤ j ∧ occursAt sqlClose s j

/-! ## Data model of the loader (source lines 21-50) -/

/-- A cell of the in-memory table: missing (NaN/NaT), a string, a number, or
a timestamp.  The numeric and timestamp payloads are opaque to the
repository's code, so they are carried as plain integers. -/
inductive Cell where
  | null
  | text (s : Chars)
  | num (x : Int)
  | ts (t : Nat)
deriving DecidableEq

/-- pandas dtype of a column as the source's checks distinguish them:
object (textual), numeric, or datetime. -/
inductive Dtype where
  | obj
  | numeric
  | datetime
deriving DecidableEq

structure Column where
  name : Chars
  dtype : Dtype
  cells : List Cell
deriving DecidableEq

structure DataFrame where
  cols : List Column
deriving DecidableEq

/-- Default column used with List.getD when indexing a frame. -/
def emptyCol : Column := ⟨[], Dtype.obj, []⟩

/-- Result of pandas parsing one string as a number: a float NaN or a proper
numeric value. -/
inductive NumVal where
  | nan
  | val (x : Int)
deriving DecidableEq

/-- The value parsers the source delegates to pandas for.  `num` is the
numeny parse used both by read_csv column inference and by pd.to_numeric;
`date` is pd.to_datetime on a string; `dateOfNum` is pd.to_datetime on a
numeric value (epoch interpretation).  They are parameters because pandas
is not part of this repository. -/
structure Parsers where
  num : Chars → Option NumVal
  date : Chars → Option Nat
  dateOfNum : Int → Option Nat

/-- Printers pandas df.to_csv uses for numeric and timestamp cells;
parameters for the same reason. -/
structure Shows where
  num : Int → Chars
  ts : Nat → Chars

/-- Source line 24/26: na_values=['NA', 'N/A', 'missing']. -/
def naTokens : List Chars := ["NA".toList, "N/A".toList, "missing".toList]

/-- Reading one raw CSV field: the listed na tokens become missing, anything
else stays text. -/
def naCell (s : Chars) : Cell := if s ∈ naTokens then Cell.null else Cell.text s

def numValCell : NumVal → Cell
  | NumVal.nan => Cell.null
  | NumVal.val x => Cell.num x

/-- pd.to_numeric on one cell: missing stays missing, text must parse
(a float NaN parse yields missing), numbers pass through, timestamps raise
(TypeError), signalled by `none`. -/
def toNumCell (P : Parsers) : Cell → Option Cell
  | Cell.null => some Cell.null
  | Cell.text s => (P.num s).map numValCell
  | Cell.num x => some (Cell.num x)
  | Cell.ts _ => none

/-- pd.to_numeric on a whole column: all or nothing. -/
def tryNumList (P : Parsers) : List Cell → Option (List Cell)
  | [] => some []
  | c :: cs =>
    match toNumCell P c with
    | none => none
    | some c2 => (tryNumList P cs).map (fun l => c2 :: l)

/-- pandas read_csv column typing: na tokens become missing; if every
remaining value parses as numeric the column is numeric, otherwise it is
stored as object (text). -/
def readColumn (P : Parsers) (name : Chars) (raws : List Chars) : Column :=
  match tryNumList P (raws.map naCell) with
  | some cs => ⟨name, Dtype.numeric, cs⟩
  | none => ⟨name, Dtype.obj, raws.map naCell⟩

/-- Raw grid a tabular file parses to: header names and row-major records. -/
structure RawTable where
  header : List Chars
  rows : List (List Chars)
deriving DecidableEq

/-- Column `j` of the raw grid. -/
def colRaw (rows : List (List Chars)) (j : Nat) : List Chars :=
  rows.map (fun r => r.getD j [])

/-- Source lines 24/26: pd.read_csv / pd.read_excel producing the dataframe. -/
def readTable (P : Parsers) (raw : RawTable) : DataFrame :=
  ⟨(List.range raw.header.length).map
    (fun j => readColumn P (raw.header.getD j []) (colRaw raw.rows j))⟩

/-! ## Quote-escaping step (source lines 31-32) -/

/-- Series.replace with the regex '"' -> '""': double every quote. -/
def dq : Chars → Chars
  | [] => []
  | c :: t => if c = '"' then '"' :: '"' :: dq t else c :: dq t

/-- str(float('nan')). -/
def nanStr : Chars := "nan".toList

/-- astype(str) followed by the quote replacement, applied to one cell of an
object column.  astype(str) renders a missing value as the literal string
"nan"; object columns produced by ingestion hold only missing and text
cells, and other cells are left untouched. -/
def escCell : Cell → Cell
  | Cell.null => Cell.text nanStr
  | Cell.text s => Cell.text (dq s)
  | c => c

/-- Source lines 31-32 act on the columns of object dtype only. -/
def escColumn (c : Column) : Column :=
  if c.dtype = Dtype.obj then ⟨c.name, Dtype.obj, c.cells.map escCell⟩ else c

def escapeStep (df : DataFrame) : DataFrame := ⟨df.cols.map escColumn⟩

/-! ## Per-column type inference (source lines 34-41) -/

def lowerStr (s : Chars) : Chars := s.map Char.toLower

/-- `pat` is a substring of `s`. -/
def containsSub (pat s : Chars) : Bool := (findIdx? pat s).isSome

def dateToken : Chars := "date".toList

/-- Source line 35: 'date' in col.lower(). -/
def isDateName (name : Chars) : Bool := containsSub dateToken (lowerStr name)

/-- pd.to_datetime(values, errors='coerce') on one cell: missing stays
missing, unparseable values become missing, never an error. -/
def toDateCell (P : Parsers) : Cell → Cell
  | Cell.null => Cell.null
  | Cell.text s =>
    match P.date s with
    | some t => Cell.ts t
    | none => Cell.null
  | Cell.num x =>
    match P.dateOfNum x with
    | some t => Cell.ts t
    | none => Cell.null
  | Cell.ts t => Cell.ts t

/-- Source lines 34-41: date-named columns are coerced to datetime; other
object columns are converted to numeric if the whole column parses, and left
unchanged when pd.to_numeric raises (the inner try/except); non-object
columns are untouched. -/
def inferColumn (P : Parsers) (c : Column) : Column :=
  if isDateName c.name then ⟨c.name, Dtype.datetime, c.cells.map (toDateCell P)⟩
  else if c.dtype = Dtype.obj then
    match tryNumList P c.cells with
    | some cs => ⟨c.name, Dtype.numeric, cs⟩
    | none => c
  else c

def inferStep (P : Parsers) (df : DataFrame) : DataFrame :=
  ⟨df.cols.map (inferColumn P)⟩

/-- A cell is a timestamp or missing (the only shapes a coerced date column
can hold). -/
def isNullOrTs : Cell → Bool
  | Cell.null => true
  | Cell.ts _ => true
  | _ => false

/-- The column as it enters the type-inference loop: ingested, then quote
escaped. -/
def pipeCol (P : Parsers) (raw : RawTable) (k : Nat) : Column :=
  escColumn (readColumn P (raw.header.getD k []) (colRaw raw.rows k))

/-- str() of a cell as it can occur in an ingested object column (missing
renders as "nan", text as itself; numeric and timestamp cells never occur in
such a column and map to junk). -/
def astypeStrCell : Cell → Chars
  | Cell.null => nanStr
  | Cell.text s => s
  | Cell.num _ => []
  | Cell.ts _ => []

/-- The claim's phrasing of quote escaping: each double quote becomes two,
every other character is kept. -/
def doubleQuotes (s : Chars) : Chars :=
  (s.map (fun c => if c = '"' then ['"', '"'] else [c])).flatten

/-! ## Serialization to the temp CSV (source lines 43-45) and the store
adapter's re-ingestion (source lines 74-75) -/

/-- df.to_csv cell rendering: missing prints as the empty field. -/
def cellStr (sh : Shows) : Cell → Chars
  | Cell.null => []
  | Cell.text s => s
  | Cell.num x => sh.num x
  | Cell.ts t => sh.ts t

/-- csv.QUOTE_ALL field: wrap in quotes, doubling embedded quotes. -/
def quoteField (s : Chars) : Chars := '"' :: (dq s ++ ['"'])

/-- One comma-separated, newline-terminated record of quoted fields. -/
def serRecord : List Chars → Chars
  | [] => ['\n']
  | [f] => quoteField f ++ ['\n']
  | f :: g :: fs => quoteField f ++ ',' :: serRecord (g :: fs)

def colNames (df : DataFrame) : List Chars := df.cols.map Column.name

def colStrings (sh : Shows) (df : DataFrame) : List (List Chars) :=
  df.cols.map (fun c => c.cells.map (cellStr sh))

/-- len(df): the length of the first column. -/
def rowCount (df : DataFrame) : Nat :=
  match df.cols with
  | [] => 0
  | c :: _ => c.cells.length

/-- The first n records of a column-major grid, row-major. -/
def rowsOf : List (List Chars) → Nat → List (List Chars)
  | _, 0 => []
  | cols, n + 1 => cols.map (fun l => l.headD []) :: rowsOf (cols.map List.tail) n

/-- df.to_csv(index=False, quoting=csv.QUOTE_ALL): header record then one
record per row, all fields quoted. -/
def serFile (sh : Shows) (df : DataFrame) : Chars :=
  serRecord (colNames df) ++
    ((rowsOf (colStrings sh df) (rowCount df)).map serRecord).flatten

/-- States of the re-ingestion scanner: before a field's opening quote,
inside a quoted field, just after a closing quote. -/
inductive CsvMode where
  | atField
  | inQuoted
  | afterQuote
deriving DecidableEq

/-- Modelled from the spec: the store adapter's CSV re-ingestion (duckdb's
read_csv_auto at source lines 74-75 is not part of this repository).  Per
the spec's hand-off contract the intermediate file is comma-delimited with
every field quoted, a header row present and one record per line, so the
adapter is modelled as the scanner of exactly that shape.  Arguments: mode,
current field (reversed), current record (reversed), finished records
(reversed), remaining input. -/
def csvGo : CsvMode → Chars → List Chars → List (List Chars) → Chars →
    Option (List (List Chars))
  | CsvMode.atField, _, cr, rs, [] => if cr = [] then some rs.reverse else none
  | CsvMode.atField, cf, cr, rs, c :: t =>
    if c = '"' then csvGo CsvMode.inQuoted cf cr rs t else none
  | CsvMode.inQuoted, _, _, _, [] => none
  | CsvMode.inQuoted, cf, cr, rs, c :: t =>
    if c = '"' then csvGo CsvMode.afterQuote cf cr rs t
    else csvGo CsvMode.inQuoted (c :: cf) cr rs t
  | CsvMode.afterQuote, _, _, _, [] => none
  | CsvMode.afterQuote, cf, cr, rs, c :: t =>
    if c = '"' then csvGo CsvMode.inQuoted ('"' :: cf) cr rs t
    else if c = ',' then csvGo CsvMode.atField [] (cf.reverse :: cr) rs t
    else if c = '\n' then
      csvGo CsvMode.atField [] [] ((cf.reverse :: cr).reverse :: rs) t
    else none

/-- Modelled from the spec: re-ingesting the intermediate CSV yields its
records. -/
def csvParse (s : Chars) : Option (List (List Chars)) :=
  csvGo CsvMode.atField [] [] [] s

/-! ## preprocess_and_save (source lines 21-50) -/

/-- The two user-facing error messages of preprocess_and_save: line 28's
unsupported-format message and line 49's catch-all carrying the cause. -/
inductive ErrDisplay where
  | unsupportedFormat
  | processingError (cause : Chars)
deriving DecidableEq

/-- The triple returned by preprocess_and_save together with what st.error
displayed.  A failing call returns None, None, None. -/
structure LoadOutput where
  errorMsg : Option ErrDisplay
  tempCsv : Option Chars
  columns : Option (List Chars)
  df : Option DataFrame
deriving DecidableEq

/-- An uploaded file: its declared name and what parsing its bytes in the
declared format yields — a raw grid, or a parse/encoding failure with the
exception's message (the pandas byte-level readers are not repository
code). -/
structure UploadedFile where
  name : Chars
  content : Except Chars RawTable

/-- str.endswith. -/
def endsWithL (s suf : Chars) : Prop :=
  s.drop (s.length - suf.length) = suf

instance (s suf : Chars) : Decidable (endsWithL s suf) :=
  decidable_of_iff (s.drop (s.length - suf.length) = suf) Iff.rfl

def csvSuffix : Chars := ".csv".toList
def xlsxSuffix : Chars := ".xlsx".toList

/-- The dataframe as it stands after the whole body of preprocess_and_save
(lines 24-41): ingestion typing, quote escaping, type inference. -/
def loadDf (P : Parsers) (raw : RawTable) : DataFrame :=
  inferStep P (escapeStep (readTable P raw))

/-- Lines 24-47 on a successfully format-dispatched file: either the caught
parse failure (line 48-50) or the processed frame, its serialized temp CSV
and its column list. -/
def loadFrom (P : Parsers) (sh : Shows) (content : Except Chars RawTable) :
    LoadOutput :=
  match content with
  | Except.error e => ⟨some (ErrDisplay.processingError e), none, none, none⟩
  | Except.ok raw =>
    let d := loadDf P raw
    ⟨none, some (serFile sh d), some (colNames d), some d⟩

/-- Source lines 21-50. -/
def preprocess_and_save (P : Parsers) (sh : Shows) (file : UploadedFile) :
    LoadOutput :=
  if endsWithL file.name csvSuffix then loadFrom P sh file.content
  else if endsWithL file.name xlsxSuffix then loadFrom P sh file.content
  else ⟨some ErrDisplay.unsupportedFormat, none, none, none⟩

/-! ## Submit Query handler (source lines 82-107) -/

inductive QueryOutcome where
  | warnedEmpty
  | executed (sql : Chars)
  | showedRaw (raw : Chars)
  | failed (err : Chars)
deriving DecidableEq

/-- Session state the handler can see: the stored API key and the loaded
table. -/
structure Session where
  geminiKey : Chars
  table : DataFrame
deriving DecidableEq

/-- What one press of Submit Query did: the session state afterwards,
whether the model was called, and what was rendered. -/
structure SubmitResult where
  state : Session
  modelCalled : Bool
  outcome : QueryOutcome
deriving DecidableEq

/-- Source lines 82-107.  `exec` abstracts con.execute (the embedded store);
`modelResponse` is the text the model call returns.  An empty or blank
question short-circuits with a warning before any model call; otherwise the
response is searched for a fenced sql block, which is either executed (with
engine failures caught at line 106) or, absent a block, the raw response is
shown. -/
def submitQuery (exec : Chars → Except Chars Unit) (st : Session)
    (userQuery : Chars) (modelResponse : Chars) : SubmitResult :=
  if pyStrip userQuery = [] then ⟨st, false, QueryOutcome.warnedEmpty⟩
  else
    match extract modelResponse with
    | some sql =>
      match exec sql with
      | Except.ok _ => ⟨st, true, QueryOutcome.executed sql⟩
      | Except.error e => ⟨st, true, QueryOutcome.failed e⟩
    | none => ⟨st, true, QueryOutcome.showedRaw modelResponse⟩

/-! ## Concrete instances used by the witnesses -/

/-- Simple decimal reading for the concrete witness parsers. -/
def natOfDigits (s : Chars) : Nat :=
  s.foldl (fun a c => 10 * a + (c.toNat - 48)) 0

def isDigit09 (c : Char) : Bool := decide ('0' ≤ c ∧ c ≤ '9')

/-- Witness instance of the pandas numeric parse: "nan" is a float NaN,
digit strings are numbers, anything else fails. -/
def numSimple (s : Chars) : Option NumVal :=
  if s = nanStr then some NumVal.nan
  else if s ≠ [] ∧ s.all isDigit09 then some (NumVal.val (natOfDigits s))
  else none

/-- Witness instance of the pandas timestamp parse: digit strings only. -/
def dateSimple (s : Chars) : Option Nat :=
  if s ≠ [] ∧ s.all isDigit09 then some (natOfDigits s) else none

def P0 : Parsers := ⟨numSimple, dateSimple, fun _ => none⟩

def sh0 : Shows := ⟨fun x => (toString x).toList, fun t => (toString t).toList⟩

/-- Witness input: the spec's two-block model response. -/
def exTwoBlocks : Chars := "```sql\nSELECT 1\n```\n```sql\nSELECT 2\n```".toList

/-- Witness input: the spec's blockless model response. -/
def respNoBlock : Chars := "no fenced block here".toList

/-- Witness input: a grid whose column x holds an na token and a non-numeric
string. -/
def rawNa : RawTable := ⟨["x".toList], [["NA".toList], ["abc".toList]]⟩

def fNa : UploadedFile := ⟨"t.csv".toList, Except.ok rawNa⟩

/-- Witness input: a grid with a date-named column holding a parseable value,
an unparseable one and an na token. -/
def rawDate : RawTable :=
  ⟨["Date".toList], [["2020".toList], ["oops".toList], ["NA".toList]]⟩

def fDate : UploadedFile := ⟨"d.csv".toList, Except.ok rawDate⟩

/-- Witness input: a grid with a numeric column and a text column holding an
embedded quote. -/
def rawQuote : RawTable :=
  ⟨["a".toList, "b".toList], [["1".toList, "x\"y".toList]]⟩

def fQuote : UploadedFile := ⟨"q.csv".toList, Except.ok rawQuote⟩

/-- Witness input: a file of unsupported extension. -/
def fTxt : UploadedFile := ⟨"data.txt".toList, Except.error "ignored".toList⟩

/-- Witness input: a csv whose bytes fail to parse. -/
def fBad : UploadedFile := ⟨"bad.csv".toList, Except.error "malformed row".toList⟩

/-! ## Lemmas about the occurrence scanner -/

theorem occursAt_drop (pat s : Chars) (d m : Nat) :
    occursAt pat (s.drop d) m ↔ occursAt pat s (m + d) := by
  unfold occursAt
  rw [List.drop_drop, Nat.add_comm d m]

theorem drop_drop' (s : Chars) (a b : Nat) : (s.drop a).drop b = s.drop (a + b) := by
  rw [List.drop_drop, Nat.add_comm]

theorem occursAt_nil (pat : Chars) (i : Nat) (h : occursAt pat ([] : Chars) i) :
    pat = [] := by
  unfold occursAt at h
  simpa using h.symm

theorem occ_of_findIdx?_some (pat s : Chars) :
    ∀ k, findIdx? pat s = some k → occursAt pat s k := by
  induction s with
  | nil =>
    intro k h
    by_cases hp : pat = []
    · simp [findIdx?, hp] at h
      subst hp
      simp [occursAt, ← h]
    · simp [findIdx?, hp] at h
  | cons c t ih =>
    intro k h
    by_cases h0 : (c :: t).take pat.length = pat
    · simp [findIdx?, h0] at h
      subst h
      exact h0
    · simp [findIdx?, h0] at h
      obtain ⟨k', hk', rfl⟩ := h
      exact ih k' hk'

theorem findIdx?_eq_some_of (pat s : Chars) (k : Nat)
    (hocc : occursAt pat s k) (hmin : ∀ m, m < k → ¬ occursAt pat s m) :
    findIdx? pat s = some k := by
  induction s generalizing k with
  | nil =>
    have hp : pat = [] := occursAt_nil pat k hocc
    have hk : k = 0 := by
      by_contra hne
      exact hmin 0 (Nat.pos_of_ne_zero hne) (by simp [occursAt, hp])
    simp [findIdx?, hp, hk]
  | cons c t ih =>
    by_cases h0 : (c :: t).take pat.length = pat
    · have hk : k = 0 := by
        by_contra hne
        exact hmin 0 (Nat.pos_of_ne_zero hne) h0
      simp [findIdx?, h0, hk]
    · cases k with
      | zero => exact absurd hocc h0
      | succ k' =>
        have hfi : findIdx? pat t = some k' :=
          ih k' hocc (fun m hm ho => hmin (m + 1) (by omega) ho)
        simp [findIdx?, h0, hfi]

theorem findIdx?_isSome_of_occ (pat s : Chars) (m : Nat) (h : occursAt pat s m) :
    (findIdx? pat s).isSome = true := by
  induction s generalizing m with
  | nil =>
    have hp : pat = [] := occursAt_nil pat m h
    simp [findIdx?, hp]
  | cons c t ih =>
    by_cases h0 : (c :: t).take pat.length = pat
    · simp [findIdx?, h0]
    · cases m with
      | zero => exact absurd h h0
      | succ m' =>
        have := ih m' h
        simpa [findIdx?, h0, Option.isSome_map] using this

/-! ## Lemmas about the regex search -/

theorem sqlOpen_length : sqlOpen.length = 7 := rfl

theorem matchSql_some_elim (s r : Chars) (h : matchSql s = some r) :
    s.take 7 = sqlOpen ∧
      ∃ k, findIdx? sqlClose (s.drop 7) = some k ∧ r = (s.drop 7).take k := by
  unfold matchSql at h
  by_cases hp : s.take sqlOpen.length = sqlOpen
  · rw [if_pos hp] at h
    cases hfi : findIdx? sqlClose (s.drop sqlOpen.length) with
    | none => rw [sqlOpen_length] at hfi; rw [sqlOpen_length, hfi] at h; simp at h
    | some k =>
      rw [sqlOpen_length] at hfi
      rw [sqlOpen_length, hfi] at h
      simp at h
      exact ⟨hp, k, hfi, h.symm⟩
  · rw [if_neg hp] at h
    simp at h

theorem searchSql_eq_some_of (s : Chars) :
    ∀ (i : Nat) (r : Chars), (∀ m, m < i → matchSql (s.drop m) = none) →
      matchSql (s.drop i) = some r → searchSql s = some r := by
  induction s with
  | nil =>
    intro i r _ hm
    rw [List.drop_nil] at hm
    have hz : matchSql ([] : Chars) = none := by decide
    rw [hz] at hm
    simp at hm
  | cons c t ih =>
    intro i r hnone hm
    cases i with
    | zero =>
      rw [List.drop_zero] at hm
      simp [searchSql, hm]
    | succ i' =>
      have h0 : matchSql (c :: t) = none := by
        have := hnone 0 (Nat.succ_pos _)
        rwa [List.drop_zero] at this
      have ht := ih i' r (fun m hm' => hnone (m + 1) (by omega)) hm
      simp [searchSql, h0, ht]

theorem hasBlock_of_searchSql_some (s : Chars) :
    ∀ r, searchSql s = some r → hasBlock s := by
  induction s with
  | nil => intro r h; simp [searchSql] at h
  | cons c t ih =>
    intro r h
    cases hm : matchSql (c :: t) with
    | some r2 =>
      obtain ⟨hopen, k, hfi, _⟩ := matchSql_some_elim _ _ hm
      have hcl : occursAt sqlClose (c :: t) (k + 7) := by
        have hk := occ_of_findIdx?_some sqlClose _ k hfi
        exact (occursAt_drop sqlClose (c :: t) 7 k).mp hk
      exact ⟨0, k + 7, hopen, by omega, hcl⟩
    | none =>
      simp [searchSql, hm] at h
      obtain ⟨i, j, ho, hij, hc⟩ := ih r h
      exact ⟨i + 1, j + 1, ho, by omega, hc⟩

theorem searchSql_isSome_of_hasBlock (s : Chars) :
    hasBlock s → (searchSql s).isSome = true := by
  induction s with
  | nil =>
    rintro ⟨i, j, ho, _, _⟩
    exact absurd (occursAt_nil sqlOpen i ho) (by decide)
  | cons c t ih =>
    rintro ⟨i, j, ho, hij, hc⟩
    cases i with
    | zero =>
      have hopen : (c :: t).take 7 = sqlOpen := ho
      have hk : occursAt sqlClose ((c :: t).drop 7) (j - 7) := by
        rw [occursAt_drop]
        have : j - 7 + 7 = j := by omega
        rw [this]
        exact hc
      have hfs := findIdx?_isSome_of_occ sqlClose _ _ hk
      cases hfi : findIdx? sqlClose ((c :: t).drop 7) with
      | none => rw [hfi] at hfs; simp at hfs
      | some k =>
        have hms : matchSql (c :: t) =
            some (((c :: t).drop 7).take k) := by
          unfold matchSql
          rw [sqlOpen_length, if_pos hopen, hfi]
          rfl
        simp [searchSql, hms]
    | succ i' =>
      obtain ⟨j', rfl⟩ : ∃ j', j = j' + 1 := ⟨j - 1, by omega⟩
      have hres := ih ⟨i', j', ho, by omega, hc⟩
      cases hm : matchSql (c :: t) with
      | some r => simp [searchSql, hm]
      | none => simpa [searchSql, hm] using hres

theorem hasBlock_iff (s : Chars) : hasBlock s ↔ (searchSql s).isSome = true :=
  ⟨searchSql_isSome_of_hasBlock s, fun h => by
    cases hs : searchSql s with
    | none => rw [hs] at h; simp at h
    | some r => exact hasBlock_of_searchSql_some s r hs⟩

instance (s : Chars) : Decidable (hasBlock s) :=
  decidable_of_iff ((searchSql s).isSome = true) (hasBlock_iff s).symm

/-- C1: for every model response with at least one fenced block opened by
the literal "```sql" plus newline and closed by a later "```", the extractor
returns the whitespace-trimmed interior of the first such block — the block
at the least opening index having a later close, cut at the nearest close —
so later fenced sql blocks are ignored. -/
theorem extract_first_fenced_block (s : Chars) (i j : Nat)
    (hopen : occursAt sqlOpen s i)
    (hfirst : ∀ i', i' < i →
      ¬ (occursAt sqlOpen s i' ∧ ∃ j', i' + 7 ≤ j' ∧ occursAt sqlClose s j'))
    (hclose : occursAt sqlClose s j) (hij : i + 7 ≤ j)
    (hnear : ∀ j', j' < j → i + 7 ≤ j' → ¬ occursAt sqlClose s j') :
    extract s = some (pyStrip ((s.drop (i + 7)).take (j - (i + 7)))) := by
  have hfi : findIdx? sqlClose (s.drop (i + 7)) = some (j - (i + 7)) := by
    apply findIdx?_eq_some_of
    · rw [occursAt_drop]
      have : j - (i + 7) + (i + 7) = j := by omega
      rw [this]
      exact hclose
    · intro m hm hocc
      rw [occursAt_drop] at hocc
      exact hnear (m + (i + 7)) (by omega) (by omega) hocc
  have hopen' : List.take 7 (List.drop i s) = sqlOpen := hopen
  have hms : matchSql (s.drop i) =
      some ((s.drop (i + 7)).take (j - (i + 7))) := by
    unfold matchSql
    rw [sqlOpen_length, drop_drop' s i 7, if_pos hopen', hfi]
    rfl
  have hmn : ∀ m, m < i → matchSql (s.drop m) = none := by
    intro m hm
    cases hmm : matchSql (s.drop m) with
    | none => rfl
    | some r =>
      exfalso
      obtain ⟨ho', k, hfi', _⟩ := matchSql_some_elim _ _ hmm
      have hc' := occ_of_findIdx?_some sqlClose _ k hfi'
      rw [drop_drop', occursAt_drop] at hc'
      exact hfirst m hm ⟨ho', ⟨k + (m + 7), by omega, hc'⟩⟩
  have hss := searchSql_eq_some_of s i _ hmn hms
  unfold extract
  rw [hss]
  rfl

/-- Witness for C1 at the spec's own example: two fenced blocks; the first
interior, trimmed, is returned and the second block is ignored. -/
theorem extract_first_fenced_block_w :
    extract exTwoBlocks = some ("SELECT 1".toList) := by
  have h := extract_first_fenced_block exTwoBlocks 0 16 (by decide)
    (fun i' hi' => absurd hi' (Nat.not_lt_zero i'))
    (by decide) (by decide) (by decide)
  rw [h]
  decide

/-- C5: a model response containing no fenced sql block makes the extractor
return none; the handler then shows the raw model text, executes no SQL
against the store and produces no execution error — the outcome is the
defined no-SQL-found case, not a failure. -/
theorem no_block_shows_raw (resp : Chars) (hnb : ¬ hasBlock resp) :
    extract resp = none ∧
    ∀ (exec : Chars → Except Chars Unit) (st : Session) (q : Chars),
      pyStrip q ≠ [] →
        submitQuery exec st q resp = ⟨st, true, QueryOutcome.showedRaw resp⟩ := by
  have hs : searchSql resp = none := by
    cases hs : searchSql resp with
    | none => rfl
    | some r => exact absurd (hasBlock_of_searchSql_some resp r hs) hnb
  have he : extract resp = none := by
    unfold extract
    rw [hs]
    rfl
  refine ⟨he, ?_⟩
  intro exec st q hq
  unfold submitQuery
  rw [if_neg hq, he]

/-- Witness for C5 at the spec's example response. -/
theorem no_block_shows_raw_w :
    extract respNoBlock = none ∧
    submitQuery (fun _ => Except.ok ()) ⟨[], ⟨[]⟩⟩ ("q".toList) respNoBlock =
      ⟨⟨[], ⟨[]⟩⟩, true, QueryOutcome.showedRaw respNoBlock⟩ := by
  have h := no_block_shows_raw respNoBlock (by decide)
  exact ⟨h.1, h.2 (fun _ => Except.ok ()) ⟨[], ⟨[]⟩⟩ ("q".toList) (by decide)⟩

/-- C10: a submitted question that is empty or all whitespace produces only
the enter-a-valid-query warning: the model is not called, no SQL is
executed, and the session state (key and loaded table) is unchanged. -/
theorem blank_query_no_action (exec : Chars → Except Chars Unit) (st : Session)
    (q resp : Chars) (hq : ∀ c ∈ q, isPySpace c = true) :
    submitQuery exec st q resp = ⟨st, false, QueryOutcome.warnedEmpty⟩ := by
  have hstrip : pyStrip q = [] := by
    unfold pyStrip
    have h1 : q.dropWhile isPySpace = [] := List.dropWhile_eq_nil_iff.mpr hq
    rw [h1]
    rfl
  unfold submitQuery
  rw [if_pos hstrip]

/-- Witness for C10 on an all-blank question. -/
theorem blank_query_no_action_w :
    submitQuery (fun _ => Except.ok ()) ⟨[], ⟨[]⟩⟩ ("  ".toList) ("resp".toList) =
      ⟨⟨[], ⟨[]⟩⟩, false, QueryOutcome.warnedEmpty⟩ :=
  blank_query_no_action _ _ _ _ (by decide)

/-! ## Structural lemmas about the loader pipeline -/

theorem readColumn_name (P : Parsers) (name : Chars) (raws : List Chars) :
    (readColumn P name raws).name = name := by
  unfold readColumn
  split <;> rfl

theorem escColumn_name (c : Column) : (escColumn c).name = c.name := by
  unfold escColumn
  split <;> rfl

theorem pipeCol_name (P : Parsers) (raw : RawTable) (k : Nat) :
    (pipeCol P raw k).name = raw.header.getD k [] := by
  unfold pipeCol
  rw [escColumn_name, readColumn_name]

theorem readTable_length (P : Parsers) (raw : RawTable) :
    (readTable P raw).cols.length = raw.header.length := by
  simp [readTable]

theorem loadDf_length (P : Parsers) (raw : RawTable) :
    (loadDf P raw).cols.length = raw.header.length := by
  simp [loadDf, inferStep, escapeStep, readTable]

theorem readTable_col (P : Parsers) (raw : RawTable) (k : Nat)
    (hk : k < raw.header.length) :
    (readTable P raw).cols.getD k emptyCol =
      readColumn P (raw.header.getD k []) (colRaw raw.rows k) := by
  have hlen : k < (readTable P raw).cols.length := by
    rw [readTable_length]
    exact hk
  rw [List.getD_eq_getElem _ _ hlen]
  simp [readTable]

theorem escapeStep_col (P : Parsers) (raw : RawTable) (k : Nat)
    (hk : k < raw.header.length) :
    (escapeStep (readTable P raw)).cols.getD k emptyCol = pipeCol P raw k := by
  have hlen : k < (escapeStep (readTable P raw)).cols.length := by
    simp [escapeStep, readTable_length]
    exact hk
  rw [List.getD_eq_getElem _ _ hlen]
  simp [escapeStep, readTable, pipeCol]

theorem loadDf_col (P : Parsers) (raw : RawTable) (k : Nat)
    (hk : k < raw.header.length) :
    (loadDf P raw).cols.getD k emptyCol = inferColumn P (pipeCol P raw k) := by
  have hlen : k < (loadDf P raw).cols.length := by
    rw [loadDf_length]
    exact hk
  rw [List.getD_eq_getElem _ _ hlen]
  simp [loadDf, inferStep, escapeStep, readTable, pipeCol]

theorem preprocess_ok (P : Parsers) (sh : Shows) (file : UploadedFile)
    (raw : RawTable)
    (hext : endsWithL file.name csvSuffix ∨ endsWithL file.name xlsxSuffix)
    (hc : file.content = Except.ok raw) :
    preprocess_and_save P sh file =
      ⟨none, some (serFile sh (loadDf P raw)), some (colNames (loadDf P raw)),
        some (loadDf P raw)⟩ := by
  unfold preprocess_and_save
  by_cases h1 : endsWithL file.name csvSuffix
  · rw [if_pos h1, hc]
    rfl
  · rcases hext with h | h
    · exact absurd h h1
    · rw [if_neg h1, if_pos h, hc]
      rfl

/-! ## Lemmas about the numeric conversion -/

theorem tryNumList_eq_some_of_all (P : Parsers) (cs : List Cell)
    (h : ∀ c ∈ cs, (toNumCell P c).isSome = true) :
    tryNumList P cs = some (cs.map (fun c => (toNumCell P c).getD Cell.null)) := by
  induction cs with
  | nil => rfl
  | cons c cs ih =>
    have hc := h c (by simp)
    cases hcc : toNumCell P c with
    | none => rw [hcc] at hc; simp at hc
    | some c2 =>
      have hrest := ih (fun x hx => h x (by simp [hx]))
      simp [tryNumList, hcc, hrest]

theorem tryNumList_eq_none_of (P : Parsers) (cs : List Cell) (c : Cell)
    (hc : c ∈ cs) (h : toNumCell P c = none) : tryNumList P cs = none := by
  induction cs with
  | nil => cases hc
  | cons d ds ih =>
    rcases List.mem_cons.mp hc with rfl | hmem
    · simp [tryNumList, h]
    · cases hd : toNumCell P d with
      | none => simp [tryNumList, hd]
      | some d2 => simp [tryNumList, hd, ih hmem]

theorem tryNumList_some_eq (P : Parsers) (cs : List Cell) :
    ∀ l, tryNumList P cs = some l →
      l = cs.map (fun c => (toNumCell P c).getD Cell.null) := by
  induction cs with
  | nil =>
    intro l h
    simp [tryNumList] at h
    subst h
    rfl
  | cons c cs ih =>
    intro l h
    cases hc : toNumCell P c with
    | none => simp [tryNumList, hc] at h
    | some c2 =>
      rw [tryNumList, hc] at h
      cases htn : tryNumList P cs with
      | none => rw [htn] at h; simp at h
      | some l' =>
        rw [htn] at h
        simp at h
        rw [← h, ih l' htn]
        simp [hc]

/-- C6: a file whose name ends in neither .csv nor .xlsx fails immediately
with the unsupported-format report and all three components of the result
are absent — no table is created. -/
theorem unsupported_format (P : Parsers) (sh : Shows) (file : UploadedFile)
    (hcsv : ¬ endsWithL file.name csvSuffix)
    (hxlsx : ¬ endsWithL file.name xlsxSuffix) :
    preprocess_and_save P sh file =
      ⟨some ErrDisplay.unsupportedFormat, none, none, none⟩ := by
  unfold preprocess_and_save
  rw [if_neg hcsv, if_neg hxlsx]

/-- Witness for C6 on a .txt upload. -/
theorem unsupported_format_w :
    preprocess_and_save P0 sh0 fTxt =
      ⟨some ErrDisplay.unsupportedFormat, none, none, none⟩ :=
  unsupported_format P0 sh0 fTxt (by decide) (by decide)

/-- C7: when parsing the uploaded bytes raises, the loader catches it,
reports the failure with the underlying cause message, and returns no
partial table: temp path, column list and frame are all absent. -/
theorem ingestion_error_no_partial (P : Parsers) (sh : Shows)
    (file : UploadedFile) (e : Chars)
    (hext : endsWithL file.name csvSuffix ∨ endsWithL file.name xlsxSuffix)
    (herr : file.content = Except.error e) :
    preprocess_and_save P sh file =
      ⟨some (ErrDisplay.processingError e), none, none, none⟩ := by
  unfold preprocess_and_save
  by_cases h1 : endsWithL file.name csvSuffix
  · rw [if_pos h1, herr]
    rfl
  · rcases hext with h | h
    · exact absurd h h1
    · rw [if_neg h1, if_pos h, herr]
      rfl

/-- Witness for C7 on a malformed csv. -/
theorem ingestion_error_no_partial_w :
    preprocess_and_save P0 sh0 fBad =
      ⟨some (ErrDisplay.processingError "malformed row".toList), none, none, none⟩ :=
  ingestion_error_no_partial P0 sh0 fBad ("malformed row".toList)
    (Or.inl (by decide)) rfl

theorem isNullOrTs_toDateCell (P : Parsers) (c : Cell) :
    isNullOrTs (toDateCell P c) = true := by
  cases c with
  | null => rfl
  | text s =>
    simp only [toDateCell]
    cases P.date s <;> rfl
  | num x =>
    simp only [toDateCell]
    cases P.dateOfNum x <;> rfl
  | ts t => rfl

/-- C2: for every loaded table and every column whose name contains "date"
case-insensitively, the inference loop re-parses every value of the column
as a timestamp with failures coerced: the final column is datetime, its
cells are exactly the per-cell coercion of the column's pre-inference cells,
and every resulting cell is a timestamp (parse succeeded) or null (parse
failed) — the step is a total function, never an exception. -/
theorem date_column_coerced (P : Parsers) (sh : Shows) (file : UploadedFile)
    (raw : RawTable) (k : Nat)
    (hc : file.content = Except.ok raw)
    (hext : endsWithL file.name csvSuffix ∨ endsWithL file.name xlsxSuffix)
    (hk : k < raw.header.length)
    (hdate : isDateName (raw.header.getD k []) = true) :
    (preprocess_and_save P sh file).df = some (loadDf P raw) ∧
    (loadDf P raw).cols.getD k emptyCol =
      ⟨raw.header.getD k [], Dtype.datetime,
        ((escapeStep (readTable P raw)).cols.getD k emptyCol).cells.map
          (toDateCell P)⟩ ∧
    ((loadDf P raw).cols.getD k emptyCol).cells.all isNullOrTs = true := by
  have hname : isDateName (pipeCol P raw k).name = true := by
    rw [pipeCol_name]
    exact hdate
  have hcol : (loadDf P raw).cols.getD k emptyCol =
      ⟨(pipeCol P raw k).name, Dtype.datetime,
        (pipeCol P raw k).cells.map (toDateCell P)⟩ := by
    rw [loadDf_col P raw k hk]
    unfold inferColumn
    rw [if_pos hname]
  refine ⟨?_, ?_, ?_⟩
  · rw [preprocess_ok P sh file raw hext hc]
  · rw [hcol, escapeStep_col P raw k hk, pipeCol_name]
  · rw [hcol]
    simp only [List.all_eq_true]
    intro x hx
    obtain ⟨c, _, rfl⟩ := List.mem_map.mp hx
    exact isNullOrTs_toDateCell P c

/-- Witness for C2 on the Date column of d.csv. -/
theorem date_column_coerced_w :
    (preprocess_and_save P0 sh0 fDate).df = some (loadDf P0 rawDate) ∧
    (loadDf P0 rawDate).cols.getD 0 emptyCol =
      ⟨rawDate.header.getD 0 [], Dtype.datetime,
        ((escapeStep (readTable P0 rawDate)).cols.getD 0 emptyCol).cells.map
          (toDateCell P0)⟩ ∧
    ((loadDf P0 rawDate).cols.getD 0 emptyCol).cells.all isNullOrTs = true :=
  date_column_coerced P0 sh0 fDate rawDate 0 rfl (Or.inl (by decide))
    (by decide) (by decide)

/-- C3: for a textual (object-typed, non-date-named) column entering the
inference loop, numeric conversion is all-or-nothing: if every cell of the
column converts (nulls pass through, text must parse), the whole column
becomes numeric with the converted cells; if any cell fails, the column is
returned unchanged — the failure is silent (the inner try/except) and the
load still succeeds with no error reported. -/
theorem numeric_all_or_nothing (P : Parsers) (sh : Shows) (file : UploadedFile)
    (raw : RawTable) (k : Nat)
    (hc : file.content = Except.ok raw)
    (hext : endsWithL file.name csvSuffix ∨ endsWithL file.name xlsxSuffix)
    (hk : k < raw.header.length)
    (hnd : isDateName (raw.header.getD k []) = false)
    (hobj : (pipeCol P raw k).dtype = Dtype.obj) :
    (preprocess_and_save P sh file).errorMsg = none ∧
    (preprocess_and_save P sh file).df = some (loadDf P raw) ∧
    ((pipeCol P raw k).cells.all (fun c => (toNumCell P c).isSome) = true →
      (loadDf P raw).cols.getD k emptyCol =
        ⟨(pipeCol P raw k).name, Dtype.numeric,
          (pipeCol P raw k).cells.map (fun c => (toNumCell P c).getD Cell.null)⟩) ∧
    ((pipeCol P raw k).cells.all (fun c => (toNumCell P c).isSome) = false →
      (loadDf P raw).cols.getD k emptyCol = pipeCol P raw k) := by
  have hnotdate : ¬ (isDateName (pipeCol P raw k).name = true) := by
    rw [pipeCol_name, hnd]
    decide
  refine ⟨?_, ?_, ?_, ?_⟩
  · rw [preprocess_ok P sh file raw hext hc]
  · rw [preprocess_ok P sh file raw hext hc]
  · intro hall
    rw [loadDf_col P raw k hk]
    unfold inferColumn
    rw [if_neg hnotdate, if_pos hobj]
    have hsome := tryNumList_eq_some_of_all P (pipeCol P raw k).cells
      (by simpa [List.all_eq_true] using hall)
    rw [hsome]
  · intro hex
    rw [loadDf_col P raw k hk]
    unfold inferColumn
    rw [if_neg hnotdate, if_pos hobj]
    have hwit : ∃ c ∈ (pipeCol P raw k).cells, toNumCell P c = none := by
      by_contra hno
      push_neg at hno
      have hall : (pipeCol P raw k).cells.all
          (fun c => (toNumCell P c).isSome) = true := by
        simp only [List.all_eq_true]
        intro c hcmem
        cases hcc : toNumCell P c with
        | none => exact absurd hcc (hno c hcmem)
        | some _ => simp [hcc]
      rw [hall] at hex
      simp at hex
    obtain ⟨c, hcm, hcn⟩ := hwit
    rw [tryNumList_eq_none_of P _ c hcm hcn]

/-- Witness for C3 on the x column of t.csv (one cell fails to parse, the
column is left unchanged). -/
theorem numeric_all_or_nothing_w :
    (preprocess_and_save P0 sh0 fNa).errorMsg = none ∧
    (preprocess_and_save P0 sh0 fNa).df = some (loadDf P0 rawNa) ∧
    ((pipeCol P0 rawNa 0).cells.all (fun c => (toNumCell P0 c).isSome) = true →
      (loadDf P0 rawNa).cols.getD 0 emptyCol =
        ⟨(pipeCol P0 rawNa 0).name, Dtype.numeric,
          (pipeCol P0 rawNa 0).cells.map
            (fun c => (toNumCell P0 c).getD Cell.null)⟩) ∧
    ((pipeCol P0 rawNa 0).cells.all (fun c => (toNumCell P0 c).isSome) = false →
      (loadDf P0 rawNa).cols.getD 0 emptyCol = pipeCol P0 rawNa 0) :=
  numeric_all_or_nothing P0 sh0 fNa rawNa 0 rfl (Or.inl (by decide))
    (by decide) (by decide) (by decide)

/-- C4, amended: every cell equal to one of the na tokens is converted to
null at parse time, before the type-inference step begins.  (The original
claim's further assertion that this nullness persists throughout type
inference regardless of column type fails: see the counterexample.) -/
theorem na_token_null_at_parse (P : Parsers) (raw : RawTable) (k i : Nat)
    (hk : k < raw.header.length) (hi : i < raw.rows.length)
    (hna : (raw.rows.getD i []).getD k [] ∈ naTokens) :
    ((readTable P raw).cols.getD k emptyCol).cells.getD i (Cell.text []) =
      Cell.null := by
  rw [readTable_col P raw k hk]
  have hlen : i < ((colRaw raw.rows k).map naCell).length := by
    simp [colRaw]
    exact hi
  rw [List.getD_eq_getElem raw.rows [] hi] at hna
  have hcellElem : ((colRaw raw.rows k).map naCell)[i] = Cell.null := by
    simp only [colRaw, List.getElem_map]
    unfold naCell
    rw [if_pos hna]
  unfold readColumn
  cases htn : tryNumList P ((colRaw raw.rows k).map naCell) with
  | none =>
    show ((colRaw raw.rows k).map naCell).getD i (Cell.text []) = Cell.null
    rw [List.getD_eq_getElem _ _ hlen]
    exact hcellElem
  | some cs =>
    have hcs := tryNumList_some_eq P _ cs htn
    show cs.getD i (Cell.text []) = Cell.null
    rw [hcs]
    have hl2 : i < (((colRaw raw.rows k).map naCell).map
        (fun c => (toNumCell P c).getD Cell.null)).length := by
      simp [colRaw]
      exact hi
    rw [List.getD_eq_getElem _ _ hl2, List.getElem_map]
    rw [hcellElem]
    rfl

/-- Witness for the amended C4 on the NA cell of t.csv. -/
theorem na_token_null_at_parse_w :
    ((readTable P0 rawNa).cols.getD 0 emptyCol).cells.getD 0 (Cell.text []) =
      Cell.null :=
  na_token_null_at_parse P0 rawNa 0 0 (by decide) (by decide) (by decide)

/-- C4 counterexample: in t.csv with column x = ["NA", "abc"], the "NA" cell
is nulled at parse, but line 32's astype(str) renders the null as the
literal string "nan" before the type-inference loop runs, and since the
column stays textual the final table holds the non-null text "nan" — so the
normalization to null does not hold throughout type inference regardless of
column type, refuting the claim as stated. -/
theorem na_token_resurrected_cex :
    (preprocess_and_save P0 sh0 fNa).df =
      some ⟨[⟨"x".toList, Dtype.obj,
        [Cell.text "nan".toList, Cell.text "abc".toList]⟩]⟩ ∧
    Cell.text "nan".toList ≠ Cell.null := by
  exact ⟨by decide, by decide⟩

/-! ## Quote escaping lemmas -/

theorem dq_eq_doubleQuotes (s : Chars) : dq s = doubleQuotes s := by
  induction s with
  | nil => rfl
  | cons c t ih =>
    unfold doubleQuotes at ih ⊢
    by_cases h : c = '"'
    · simp [dq, h, ih]
    · simp [dq, h, ih]

theorem dq_nanStr : dq nanStr = nanStr := by decide

theorem escCell_naCell (s : Chars) :
    escCell (naCell s) = Cell.text (doubleQuotes (astypeStrCell (naCell s))) := by
  unfold naCell
  by_cases h : s ∈ naTokens
  · rw [if_pos h]
    show Cell.text nanStr = Cell.text (doubleQuotes nanStr)
    rw [← dq_eq_doubleQuotes, dq_nanStr]
  · rw [if_neg h]
    show Cell.text (dq s) = Cell.text (doubleQuotes s)
    rw [dq_eq_doubleQuotes]

theorem readColumn_shape (P : Parsers) (name : Chars) (raws : List Chars) :
    readColumn P name raws = ⟨name, Dtype.obj, raws.map naCell⟩ ∨
    (readColumn P name raws).dtype = Dtype.numeric := by
  unfold readColumn
  cases htn : tryNumList P (raws.map naCell) with
  | some cs => right; rfl
  | none => left; rfl

theorem inferColumn_date (P : Parsers) (c : Column)
    (h : isDateName c.name = true) :
    inferColumn P c = ⟨c.name, Dtype.datetime, c.cells.map (toDateCell P)⟩ := by
  unfold inferColumn
  rw [if_pos h]

theorem inferColumn_obj_none (P : Parsers) (c : Column)
    (hd : ¬ isDateName c.name = true) (ho : c.dtype = Dtype.obj)
    (htn : tryNumList P c.cells = none) : inferColumn P c = c := by
  unfold inferColumn
  rw [if_neg hd, if_pos ho, htn]

theorem inferColumn_obj_some (P : Parsers) (c : Column) (cs : List Cell)
    (hd : ¬ isDateName c.name = true) (ho : c.dtype = Dtype.obj)
    (htn : tryNumList P c.cells = some cs) :
    inferColumn P c = ⟨c.name, Dtype.numeric, cs⟩ := by
  unfold inferColumn
  rw [if_neg hd, if_pos ho, htn]

theorem inferColumn_other (P : Parsers) (c : Column)
    (hd : ¬ isDateName c.name = true) (ho : ¬ c.dtype = Dtype.obj) :
    inferColumn P c = c := by
  unfold inferColumn
  rw [if_neg hd, if_neg ho]

/-- C9: every column of the final table that is still text-valued carries,
cell for cell, the string coercion of the ingested column with every
embedded double quote replaced by two double quotes — and this escaped form
is what the table serialized to the quoted temp CSV holds, since the
serialization happens afterwards (second conjunct). -/
theorem quotes_doubled_before_csv (P : Parsers) (sh : Shows)
    (file : UploadedFile) (raw : RawTable) (k : Nat)
    (hc : file.content = Except.ok raw)
    (hext : endsWithL file.name csvSuffix ∨ endsWithL file.name xlsxSuffix)
    (hk : k < raw.header.length)
    (hobj : ((loadDf P raw).cols.getD k emptyCol).dtype = Dtype.obj) :
    (preprocess_and_save P sh file).tempCsv = some (serFile sh (loadDf P raw)) ∧
    ((loadDf P raw).cols.getD k emptyCol).cells =
      ((readTable P raw).cols.getD k emptyCol).cells.map
        (fun c => Cell.text (doubleQuotes (astypeStrCell c))) := by
  refine ⟨by rw [preprocess_ok P sh file raw hext hc], ?_⟩
  rw [loadDf_col P raw k hk] at hobj ⊢
  rw [readTable_col P raw k hk]
  unfold pipeCol at hobj ⊢
  rcases readColumn_shape P (raw.header.getD k []) (colRaw raw.rows k) with hsh | hnum
  · rw [hsh] at hobj ⊢
    have hesc : escColumn
        ⟨raw.header.getD k [], Dtype.obj, (colRaw raw.rows k).map naCell⟩ =
        ⟨raw.header.getD k [], Dtype.obj,
          ((colRaw raw.rows k).map naCell).map escCell⟩ := by
      unfold escColumn
      rw [if_pos rfl]
    rw [hesc] at hobj ⊢
    by_cases hdn : isDateName (raw.header.getD k []) = true
    · rw [inferColumn_date P _ hdn] at hobj
      exact Dtype.noConfusion (show Dtype.datetime = Dtype.obj from hobj)
    · cases htn : tryNumList P (((colRaw raw.rows k).map naCell).map escCell) with
      | some cs2 =>
        rw [inferColumn_obj_some P _ cs2 hdn rfl htn] at hobj
        exact Dtype.noConfusion (show Dtype.numeric = Dtype.obj from hobj)
      | none =>
        rw [inferColumn_obj_none P _ hdn rfl htn]
        show ((colRaw raw.rows k).map naCell).map escCell =
          ((colRaw raw.rows k).map naCell).map
            (fun c => Cell.text (doubleQuotes (astypeStrCell c)))
        apply List.map_congr_left
        intro c hcm
        obtain ⟨s, _, rfl⟩ := List.mem_map.mp hcm
        exact escCell_naCell s
  · have hnotobj :
        ¬ (readColumn P (raw.header.getD k []) (colRaw raw.rows k)).dtype =
          Dtype.obj := by
      intro h
      rw [hnum] at h
      exact Dtype.noConfusion h
    have hescr :
        escColumn (readColumn P (raw.header.getD k []) (colRaw raw.rows k)) =
          readColumn P (raw.header.getD k []) (colRaw raw.rows k) := by
      unfold escColumn
      rw [if_neg hnotobj]
    rw [hescr] at hobj ⊢
    have hn := readColumn_name P (raw.header.getD k []) (colRaw raw.rows k)
    by_cases hdn : isDateName (raw.header.getD k []) = true
    · have hcond :
          isDateName (readColumn P (raw.header.getD k [])
            (colRaw raw.rows k)).name = true := by
        rw [hn]
        exact hdn
      rw [inferColumn_date P _ hcond] at hobj
      exact Dtype.noConfusion (show Dtype.datetime = Dtype.obj from hobj)
    · have hcond :
          ¬ isDateName (readColumn P (raw.header.getD k [])
            (colRaw raw.rows k)).name = true := by
        rw [hn]
        exact hdn
      rw [inferColumn_other P _ hcond hnotobj] at hobj
      exact absurd hobj hnotobj

/-- Witness for C9 on the quote-holding b column of q.csv. -/
theorem quotes_doubled_before_csv_w :
    (preprocess_and_save P0 sh0 fQuote).tempCsv =
      some (serFile sh0 (loadDf P0 rawQuote)) ∧
    ((loadDf P0 rawQuote).cols.getD 1 emptyCol).cells =
      ((readTable P0 rawQuote).cols.getD 1 emptyCol).cells.map
        (fun c => Cell.text (doubleQuotes (astypeStrCell c))) :=
  quotes_doubled_before_csv P0 sh0 fQuote rawQuote 1 rfl (Or.inl (by decide))
    (by decide) (by decide)

/-! ## Round trip of the intermediate CSV through the store adapter -/

theorem csvGo_step_open (cf : Chars) (cr : List Chars) (rs : List (List Chars))
    (t : Chars) :
    csvGo CsvMode.atField cf cr rs ('"' :: t) = csvGo CsvMode.inQuoted cf cr rs t := by
  simp [csvGo]

theorem csvGo_step_inq_quote (cf : Chars) (cr : List Chars)
    (rs : List (List Chars)) (t : Chars) :
    csvGo CsvMode.inQuoted cf cr rs ('"' :: t) =
      csvGo CsvMode.afterQuote cf cr rs t := by
  simp [csvGo]

theorem csvGo_step_inq_other (cf : Chars) (cr : List Chars)
    (rs : List (List Chars)) (c : Char) (t : Chars) (h : ¬ c = '"') :
    csvGo CsvMode.inQuoted cf cr rs (c :: t) =
      csvGo CsvMode.inQuoted (c :: cf) cr rs t := by
  simp [csvGo, h]

theorem csvGo_step_aq_quote (cf : Chars) (cr : List Chars)
    (rs : List (List Chars)) (t : Chars) :
    csvGo CsvMode.afterQuote cf cr rs ('"' :: t) =
      csvGo CsvMode.inQuoted ('"' :: cf) cr rs t := by
  simp [csvGo]

theorem csvGo_step_aq_comma (cf : Chars) (cr : List Chars)
    (rs : List (List Chars)) (t : Chars) :
    csvGo CsvMode.afterQuote cf cr rs (',' :: t) =
      csvGo CsvMode.atField [] (cf.reverse :: cr) rs t := by
  simp [csvGo]

theorem csvGo_step_aq_nl (cf : Chars) (cr : List Chars)
    (rs : List (List Chars)) (t : Chars) :
    csvGo CsvMode.afterQuote cf cr rs ('\n' :: t) =
      csvGo CsvMode.atField [] [] ((cf.reverse :: cr).reverse :: rs) t := by
  simp [csvGo]

theorem csvGo_inQuoted_run (f : Chars) :
    ∀ (cf : Chars) (cr : List Chars) (rs : List (List Chars)) (rest : Chars),
      csvGo CsvMode.inQuoted cf cr rs (dq f ++ '"' :: rest) =
        csvGo CsvMode.afterQuote (f.reverse ++ cf) cr rs rest := by
  induction f with
  | nil =>
    intro cf cr rs rest
    show csvGo CsvMode.inQuoted cf cr rs ('"' :: rest) = _
    rw [csvGo_step_inq_quote]
    simp
  | cons c t ih =>
    intro cf cr rs rest
    by_cases h : c = '"'
    · subst h
      show csvGo CsvMode.inQuoted cf cr rs
        ('"' :: '"' :: (dq t ++ '"' :: rest)) = _
      rw [csvGo_step_inq_quote, csvGo_step_aq_quote, ih]
      congr 1
      simp
    · have hd : dq (c :: t) ++ '"' :: rest = c :: (dq t ++ '"' :: rest) := by
        simp [dq, h]
      rw [hd, csvGo_step_inq_other _ _ _ _ _ h, ih]
      congr 1
      simp

theorem csvGo_field_run (f : Chars) (cr : List Chars) (rs : List (List Chars))
    (rest : Chars) :
    csvGo CsvMode.atField [] cr rs (quoteField f ++ rest) =
      csvGo CsvMode.afterQuote f.reverse cr rs rest := by
  have hq : quoteField f ++ rest = '"' :: (dq f ++ '"' :: rest) := by
    simp [quoteField]
  rw [hq, csvGo_step_open, csvGo_inQuoted_run]
  simp

theorem csvGo_record_run (fs : List Chars) (hfs : fs ≠ []) :
    ∀ (cr : List Chars) (rs : List (List Chars)) (rest : Chars),
      csvGo CsvMode.atField [] cr rs (serRecord fs ++ rest) =
        csvGo CsvMode.atField [] [] ((cr.reverse ++ fs) :: rs) rest := by
  induction fs with
  | nil => exact absurd rfl hfs
  | cons f gs ih =>
    intro cr rs rest
    cases gs with
    | nil =>
      have h1 : serRecord [f] ++ rest = quoteField f ++ '\n' :: rest := by
        simp [serRecord]
      rw [h1, csvGo_field_run, csvGo_step_aq_nl]
      congr 2
      simp
    | cons g gs2 =>
      have h1 : serRecord (f :: g :: gs2) ++ rest =
          quoteField f ++ ',' :: (serRecord (g :: gs2) ++ rest) := by
        simp [serRecord]
      rw [h1, csvGo_field_run, csvGo_step_aq_comma,
        ih (by simp) (f.reverse.reverse :: cr) rs rest]
      congr 2
      simp

theorem csvGo_records_run (records : List (List Chars)) :
    ∀ rs, (∀ r ∈ records, r ≠ []) →
      csvGo CsvMode.atField [] [] rs ((records.map serRecord).flatten) =
        some (rs.reverse ++ records) := by
  induction records with
  | nil =>
    intro rs _
    show (if ([] : List Chars) = [] then some rs.reverse else none) = _
    rw [if_pos rfl]
    simp
  | cons r rest ih =>
    intro rs hne
    have h1 : ((r :: rest).map serRecord).flatten =
        serRecord r ++ (rest.map serRecord).flatten := by
      simp
    rw [h1, csvGo_record_run r (hne r (by simp)) [] rs _,
      ih (_ :: rs) (fun x hx => hne x (by simp [hx]))]
    simp

theorem rowsOf_length (cs : List (List Chars)) (n : Nat) :
    (rowsOf cs n).length = n := by
  induction n generalizing cs with
  | zero => rfl
  | succ n ih => simp [rowsOf, ih]

theorem rowsOf_mem_length (n : Nat) :
    ∀ (cs : List (List Chars)) (r : List Chars), r ∈ rowsOf cs n →
      r.length = cs.length := by
  induction n with
  | zero =>
    intro cs r hr
    simp [rowsOf] at hr
  | succ n ih =>
    intro cs r hr
    rw [rowsOf] at hr
    rcases List.mem_cons.mp hr with rfl | hr2
    · simp
    · rw [ih _ r hr2]
      simp

theorem colNames_length (df : DataFrame) :
    (colNames df).length = df.cols.length := by
  simp [colNames]

theorem csvParse_serFile (sh : Shows) (df : DataFrame) (hcols : df.cols ≠ []) :
    csvParse (serFile sh df) =
      some (colNames df :: rowsOf (colStrings sh df) (rowCount df)) := by
  unfold csvParse serFile
  have h1 : serRecord (colNames df) ++
      ((rowsOf (colStrings sh df) (rowCount df)).map serRecord).flatten =
      (((colNames df :: rowsOf (colStrings sh df) (rowCount df))).map
        serRecord).flatten := by
    simp
  rw [h1, csvGo_records_run _ []]
  · simp
  · intro r hr
    rcases List.mem_cons.mp hr with rfl | hr2
    · intro hemp
      apply hcols
      have h3 := colNames_length df
      rw [hemp] at h3
      exact List.length_eq_zero.mp (by simpa using h3.symm)
    · intro hemp
      apply hcols
      have hlen := rowsOf_mem_length _ _ r hr2
      rw [hemp] at hlen
      have h4 : (colStrings sh df).length = df.cols.length := by
        simp [colStrings]
      have h5 : (0 : Nat) = (colStrings sh df).length := by simpa using hlen
      exact List.length_eq_zero.mp (by omega)

/-- C8: the table produced by the loader, serialized to the fully quoted
comma-delimited intermediate CSV with its header row, re-ingests through the
store adapter to exactly one header record equal to the table's column names
followed by one record per table row — the same row count and the same
column names. -/
theorem csv_round_trip (P : Parsers) (sh : Shows) (file : UploadedFile)
    (raw : RawTable)
    (hc : file.content = Except.ok raw)
    (hext : endsWithL file.name csvSuffix ∨ endsWithL file.name xlsxSuffix)
    (hh : raw.header ≠ []) :
    (preprocess_and_save P sh file).tempCsv =
      some (serFile sh (loadDf P raw)) ∧
    csvParse (serFile sh (loadDf P raw)) =
      some (colNames (loadDf P raw) ::
        rowsOf (colStrings sh (loadDf P raw)) (rowCount (loadDf P raw))) ∧
    (rowsOf (colStrings sh (loadDf P raw)) (rowCount (loadDf P raw))).length =
      rowCount (loadDf P raw) := by
  have hcols : (loadDf P raw).cols ≠ [] := by
    intro hemp
    apply hh
    have hl := loadDf_length P raw
    rw [hemp] at hl
    exact List.length_eq_zero.mp (by simpa using hl.symm)
  refine ⟨by rw [preprocess_ok P sh file raw hext hc], ?_, ?_⟩
  · exact csvParse_serFile sh (loadDf P raw) hcols
  · exact rowsOf_length _ _

/-- Witness for C8 on q.csv (a quoted text cell and a numeric cell). -/
theorem csv_round_trip_w :
    (preprocess_and_save P0 sh0 fQuote).tempCsv =
      some (serFile sh0 (loadDf P0 rawQuote)) ∧
    csvParse (serFile sh0 (loadDf P0 rawQuote)) =
      some (colNames (loadDf P0 rawQuote) ::
        rowsOf (colStrings sh0 (loadDf P0 rawQuote))
          (rowCount (loadDf P0 rawQuote))) ∧
    (rowsOf (colStrings sh0 (loadDf P0 rawQuote))
        (rowCount (loadDf P0 rawQuote))).length =
      rowCount (loadDf P0 rawQuote) :=
  csv_round_trip P0 sh0 fQuote rawQuote rfl (Or.inl (by decide)) (by decide)

end DAg
